import Mathlib

set_option maxRecDepth 8192

namespace Oddit

/-!
Shallow embedding of the oddit_backend evaluation pipeline:
the conversation loop of `src/orchestrator/simulator.py`
(`EvaluationOrchestrator.run_single_conversation` and
`run_batch_simulations`), the judge response handling of
`src/evaluators/judge.py` (`LLMJudge.evaluate_conversation`), and the
aggregator of `src/orchestrator/reporter.py`
(`EvaluationReporter.aggregate_results`).  External LLM calls - the
support agent's reply, the simulated user's reply and the judge scorer's
raw text - and the `json.loads` decoder are opaque collaborators and are
modelled as function parameters.
-/

/-- One chat message: the Python dict with keys `role` and `content`
appended to `conversation_history`. -/
structure Message where
  role : String
  content : String
  deriving DecidableEq, Repr

/-- The simulated user driver's reply: the dict returned by
`UserAgent.generate_response`, with keys `message`, `goal_met`,
`giving_up`. -/
structure UserTurn where
  message : String
  goal_met : Bool
  giving_up : Bool
  deriving DecidableEq, Repr

/-- The mutable state of the conversation loop in
`run_single_conversation`: `conversation_history`, `turns`, `goal_met`,
`giving_up`. -/
structure ConvState where
  history : List Message
  turns : Nat
  goal_met : Bool
  giving_up : Bool
  deriving DecidableEq, Repr

/-- The `while turns < max_turns and not goal_met and not giving_up`
loop of `run_single_conversation` (simulator.py lines 57-91).
`agent history userMsg` models `support_agent.respond(...)["response"]`
and `user history resp` models `user_agent.generate_response(...)`.
Each iteration appends the agent reply, breaks right away when
`turns >= max_turns - 1`, and otherwise appends the next user message,
stores its `goal_met` / `giving_up` flags and increments `turns`.
`fuel` is a structural bound on the number of iterations; the caller
passes `maxTurns`, which suffices because every iteration requires
`s.turns < maxTurns` and increments `s.turns`, so when
`fuel = maxTurns - s.turns` the fuel-exhausted branch coincides with the
loop condition being false. -/
def convLoop (agent : List Message → String → String)
    (user : List Message → String → UserTurn)
    (initialMessage : String) (maxTurns : Nat) :
    Nat → ConvState → ConvState
  | 0, s => s
  | fuel + 1, s =>
    if s.turns < maxTurns ∧ s.goal_met = false ∧ s.giving_up = false then
      let userMsg := if s.turns == 0 then initialMessage
        else ((s.history.getLast?).map Message.content).getD ""
      let resp := agent s.history userMsg
      let hist1 := s.history ++ [⟨"assistant", resp⟩]
      if s.turns ≥ maxTurns - 1 then
        { history := hist1, turns := s.turns,
          goal_met := s.goal_met, giving_up := s.giving_up }
      else
        let u := user hist1 resp
        let hist2 := hist1 ++ [⟨"user", u.message⟩]
        convLoop agent user initialMessage maxTurns fuel
          { history := hist2, turns := s.turns + 1,
            goal_met := u.goal_met, giving_up := u.giving_up }
    else s

/-- The transcript/turn-accounting part of `run_single_conversation`
from simulator.py line 40 on, i.e. after the budget defaulting of line
39 (modelled separately by `effectiveMaxTurns` and composed in
`run_single_conversation`): the history is seeded with the opening user
message (`user_agent.generate_initial_message`, a parameter here) and
the loop runs with `turns = 0`, `goal_met = giving_up = False`. -/
def runConversation (agent : List Message → String → String)
    (user : List Message → String → UserTurn)
    (initialMessage : String) (maxTurns : Nat) : ConvState :=
  convLoop agent user initialMessage maxTurns maxTurns
    { history := [⟨"user", initialMessage⟩], turns := 0,
      goal_met := false, giving_up := false }

/-- Number of agent (`"assistant"`-role) messages in a transcript. -/
def agentCount (h : List Message) : Nat :=
  (h.filter (fun m => m.role == "assistant")).length

/-- Role of the first message of a transcript, if any. -/
def headRole (h : List Message) : Option String := h.head?.map Message.role

/-- Role of the last message of a transcript, if any. -/
def lastRole (h : List Message) : Option String := h.getLast?.map Message.role

/-- A transcript alternates roles: no two consecutive messages share a
role. -/
def alternating : List Message → Bool
  | [] => true
  | [_] => true
  | a :: b :: rest => (a.role != b.role) && alternating (b :: rest)

/-! Judge response handling (`src/evaluators/judge.py`).  The raw scorer
response is a Python string, modelled as a list of characters so that
Python's index arithmetic (`find`, slicing, `strip`) can be mirrored
exactly. -/

/-- Index of the first position of `hay` (counting from `i`) at which
`needle` is a prefix, scanning left to right. -/
def strFindAux (needle : List Char) : List Char → Nat → Option Nat
  | [], i => if needle.isPrefixOf [] then some i else none
  | c :: rest, i =>
    if needle.isPrefixOf (c :: rest) then some i
    else strFindAux needle rest (i + 1)

/-- Index of the first occurrence of `needle` in `hay`, if any. -/
def strFind (hay needle : List Char) : Option Nat := strFindAux needle hay 0

/-- Python's `hay in` containment test (`"```json" in result_text`). -/
def containsSub (hay needle : List Char) : Bool := (strFind hay needle).isSome

/-- Python's `hay.find(needle, start)`: the absolute index of the first
occurrence at or after `start`, or `-1` when there is none. -/
def pyFind (hay needle : List Char) (start : Nat) : Int :=
  match strFind (hay.drop start) needle with
  | some j => (start : Int) + j
  | none => -1

/-- Python's slice `hay[a:b]` for a non-negative `a` and a possibly
negative `b` (a failed `find` yields `-1`): a negative stop counts from
the end and everything is clamped to the string's length. -/
def pySlice (hay : List Char) (a : Nat) (b : Int) : List Char :=
  let stop : Nat := if b < 0 then hay.length - b.natAbs else b.toNat
  (hay.take stop).drop a

/-- Python's `str.strip()` restricted to ASCII whitespace (the judge
output never hinges on exotic whitespace). -/
def pyStrip (l : List Char) : List Char :=
  ((l.dropWhile Char.isWhitespace).reverse.dropWhile Char.isWhitespace).reverse

/-- The labeled fence marker searched for first: `` ```json `` (7
characters). -/
def fenceJson : List Char := "```json".toList

/-- The plain fence marker: `` ``` `` (3 characters). -/
def fenceMark : List Char := "```".toList

/-- The fence-extraction step of `LLMJudge.evaluate_conversation`
(judge.py lines 69-76): if `` ```json `` occurs, slice from just after
its 7 characters up to the next `` ``` `` and strip; otherwise if any
`` ``` `` occurs, slice from just after its 3 characters up to the next
`` ``` `` and strip; otherwise keep the whole response. -/
def extractJson (resultText : List Char) : List Char :=
  if containsSub resultText fenceJson then
    let jsonStart : Int := pyFind resultText fenceJson 0 + 7
    let jsonEnd : Int := pyFind resultText fenceMark jsonStart.toNat
    pyStrip (pySlice resultText jsonStart.toNat jsonEnd)
  else if containsSub resultText fenceMark then
    let jsonStart : Int := pyFind resultText fenceMark 0 + 3
    let jsonEnd : Int := pyFind resultText fenceMark jsonStart.toNat
    pyStrip (pySlice resultText jsonStart.toNat jsonEnd)
  else resultText

/-- Decoded JSON values, as far as the pipeline inspects them: strings,
integers, floats (as rationals) and objects (insertion-ordered key/value
lists, like Python dicts). -/
inductive JVal where
  | s : String → JVal
  | i : Int → JVal
  | q : Rat → JVal
  | o : List (String × JVal) → JVal

mutual

/-- Structural equality of JSON values (Python `==` on decoded values),
used by dict-key tallying in the reporter. -/
def jvalBeq : JVal → JVal → Bool
  | .s a, .s b => a == b
  | .i a, .i b => a == b
  | .q a, .q b => a == b
  | .o a, .o b => jfieldsBeq a b
  | _, _ => false

/-- Field-list equality for `jvalBeq`. -/
def jfieldsBeq : List (String × JVal) → List (String × JVal) → Bool
  | [], [] => true
  | (k1, v1) :: r1, (k2, v2) :: r2 =>
    k1 == k2 && jvalBeq v1 v2 && jfieldsBeq r1 r2
  | _, _ => false

end

/-- Python dict lookup `m[k]` / `k in m` on a decoded JSON object. -/
def jGet (m : List (String × JVal)) (k : String) : Option JVal :=
  (m.find? (fun p => p.1 == k)).map (fun p => p.2)

/-- Whether a decoded JSON value is hashable in Python: strings and
numbers are, a dict is not - using one as a dict key raises
`TypeError: unhashable type`. -/
def hashableJVal : JVal → Bool
  | .o _ => false
  | _ => true

/-- The fixed 12-category failure taxonomy (`LLMJudge.FAILURE_CATEGORIES`
in judge.py, repeated as `self.failure_categories` in reporter.py). -/
def FAILURE_CATEGORIES : List String :=
  ["technical_failures",
   "comprehension_failures",
   "response_quality_failures",
   "knowledge_failures",
   "task_execution_failures",
   "interaction_design_failures",
   "safety_compliance_failures",
   "escalation_boundary_failures",
   "user_experience_failures",
   "business_logic_failures",
   "meta_cognitive_failures",
   "temporal_failures"]

/-- An evaluation mapping contains all 12 failure-category keys. -/
def hasAllCategories (evaluation : List (String × JVal)) : Bool :=
  FAILURE_CATEGORIES.all (fun c => evaluation.any (fun p => p.1 == c))

/-- The fallback evaluation built in the `except` branch of
`evaluate_conversation` (judge.py lines 88-96): the error string, a
single `technical_failures` entry with score 5 and confidence 0.0, and
the three summary fields. -/
def fallbackEvaluation (e : String) : List (String × JVal) :=
  [("error", .s e),
   ("technical_failures",
     .o [("score", .i 5),
         ("justification", .s "Judge failed to evaluate"),
         ("confidence", .q 0)]),
   ("overall_summary", .s ("Evaluation error: " ++ e)),
   ("primary_failure_mode", .s "Technical - Evaluation system failure"),
   ("suggestion", .s "Review evaluation system logs")]

/-- The `meta` entry added to a successfully decoded evaluation
(judge.py lines 81-84); the token count comes from the external API
response. -/
def metaEntry (tokens : Int) : String × JVal :=
  ("meta", .o [("model", .s "claude-3-5-sonnet-20241022"),
               ("tokens_used", .i tokens)])

/-- The response-handling part of `LLMJudge.evaluate_conversation`
(judge.py lines 64-96).  `decode` models `json.loads` on the extracted
text, returning `none` both when decoding raises and when the decoded
value is not a dict (in which case the `meta` assignment raises and the
same `except` branch runs); `errMsg` models `str(e)` for the caught
exception.  A successfully decoded dict is returned as-is with the
`meta` entry added; any failure returns the fallback evaluation. -/
def evaluate_conversation
    (decode : List Char → Option (List (String × JVal)))
    (errMsg : String) (tokens : Int)
    (rawResponse : List Char) : List (String × JVal) :=
  let resultText := extractJson rawResponse
  match decode resultText with
  | some evaluation => evaluation ++ [metaEntry tokens]
  | none => fallbackEvaluation errMsg

/-! Result records and the batch runner
(`src/orchestrator/simulator.py` lines 99-153). -/

/-- One entry of the result list consumed by the reporter: either the
dict returned by `run_single_conversation` (then `error = none`) or the
stub dict appended by `run_batch_simulations` when the run raised (then
`error = some msg`).  `error = some _` models the presence of the
top-level `"error"` key; the remaining fields of a stub model the
`r.get(..., default)` reads the reporter performs on it (`goal_met` and
`giving_up` default to `False`, `turns` to `0`, `evaluation` to the
empty dict).  The `timestamp` field is external wall-clock data and is
omitted; nothing in the pipeline reads it. -/
structure SimResult where
  scenario_id : String
  personality_id : String
  conversation_history : List Message
  turns : Nat
  goal_met : Bool
  giving_up : Bool
  evaluation : List (String × JVal)
  error : Option String

/-- simulator.py line 39: `max_turns = max_turns or self.max_turns`.
The Python parameter defaults to `None`, and `or` replaces any falsy
left operand - `None`, but also an explicit `0` - with the constructor
default `self.max_turns = 10` (line 20).  An explicit budget of 0 is
therefore silently coerced to 10. -/
def effectiveMaxTurns : Option Nat → Nat
  | none => 10
  | some n => if n == 0 then 10 else n

/-- `run_single_conversation` (simulator.py lines 22-108): applies the
`or`-defaulting of line 39 to the optional budget, runs the
conversation loop and packages the result dict.  `judge history` models
`self.judge.evaluate_conversation(conversation_history, goal)`, whose
scorer call and decoding are opaque here. -/
def run_single_conversation
    (agent : List Message → String → String)
    (user : List Message → String → UserTurn)
    (judge : List Message → List (String × JVal))
    (scenId persId : String)
    (initialMessage : String) (maxTurns : Option Nat) : SimResult :=
  let r := runConversation agent user initialMessage (effectiveMaxTurns maxTurns)
  { scenario_id := scenId, personality_id := persId,
    conversation_history := r.history, turns := r.turns,
    goal_met := r.goal_met, giving_up := r.giving_up,
    evaluation := judge r.history, error := none }

/-- `run_batch_simulations` (simulator.py lines 110-153): for each of
`numSimulations` runs, `pick i` models the two `random.choice` draws
(scenario id, personality id) and `runOne i sid pid` the guarded
`run_single_conversation` call, with `Except.error e` modelling a raised
exception with text `str(e)`.  A raising run appends the stub dict with
the scenario id, personality id and error; the loop always continues. -/
def run_batch_simulations
    (pick : Nat → String × String)
    (runOne : Nat → String → String → Except String SimResult)
    (numSimulations : Nat) : List SimResult :=
  (List.range numSimulations).map (fun i =>
    match runOne i (pick i).1 (pick i).2 with
    | .ok result => result
    | .error e =>
      { scenario_id := (pick i).1, personality_id := (pick i).2,
        conversation_history := [], turns := 0,
        goal_met := false, giving_up := false,
        evaluation := [], error := some e })

/-! The aggregator (`src/orchestrator/reporter.py` lines 29-153).
Computations that can raise in Python - reading `.get("score", 0)` off a
category value that is not a dict, or summing a non-numeric score - are
modelled in `Except String`, with `Except.error` standing for a raised
exception and `Except.ok` for a returned value. -/

/-- `evaluation[category].get("score", 0)` plus the later `sum(scores)`
(reporter.py lines 66-68, 140-142): only a dict has `.get`, so any other
category value raises `AttributeError`; a missing `score` key defaults
to 0; a string or nested-dict score raises `TypeError` when summed.
Integer and float scores are summed as rationals. -/
def getScore (v : JVal) : Except String Rat :=
  match v with
  | .o fields =>
    match jGet fields "score" with
    | none => .ok 0
    | some (.i n) => .ok (n : Rat)
    | some (.q x) => .ok x
    | some _ => .error "TypeError"
  | _ => .error "AttributeError"

/-- `defaultdict(list)` append: `category_scores[category].append(score)`
keeps first-seen key order, like a Python dict. -/
def ddAppend (m : List (String × List Rat)) (k : String) (v : Rat) :
    List (String × List Rat) :=
  if m.any (fun p => p.1 == k) then
    m.map (fun p => if p.1 == k then (p.1, p.2 ++ [v]) else p)
  else m ++ [(k, [v])]

/-- The inner `for category in self.failure_categories` loop of the
category-score collection (reporter.py lines 63-68) for one result. -/
def addResultScores (acc : List (String × List Rat))
    (evaluation : List (String × JVal)) :
    Except String (List (String × List Rat)) :=
  FAILURE_CATEGORIES.foldlM (fun a c =>
    match jGet evaluation c with
    | none => .ok a
    | some v => do
      let sc ← getScore v
      .ok (ddAppend a c sc)) acc

/-- The `category_scores` collection over all valid results
(reporter.py lines 62-68). -/
def collectCategoryScores (valid : List SimResult) :
    Except String (List (String × List Rat)) :=
  valid.foldlM (fun a r => addResultScores a r.evaluation) []

/-- `avg_category_scores` (reporter.py lines 71-73): the mean of each
collected score list, 0 when empty. -/
def avgCategoryScores (cs : List (String × List Rat)) :
    List (String × Rat) :=
  cs.map (fun p =>
    (p.1, if p.2.length > 0 then p.2.sum / (p.2.length : Rat) else 0))

/-- Python's `sorted(pairs, key=lambda x: x[1], reverse=True)`: a stable
descending sort on the second component (ties keep first-seen order). -/
def sortDescRat (l : List (String × Rat)) : List (String × Rat) :=
  l.mergeSort (fun a b => decide (b.2 ≤ a.2))

/-- Python's `sorted(pairs, key=lambda x: x[1], reverse=True)` for the
failure-mode tally. -/
def sortDescNat (l : List (JVal × Nat)) : List (JVal × Nat) :=
  l.mergeSort (fun a b => decide (b.2 ≤ a.2))

/-- `defaultdict(int)` increment for the `primary_failure_mode` tally
(reporter.py line 93), first-seen key order.  The dict lookup
`failure_mode_counts[primary_failure]` hashes the key first, so an
unhashable (dict-valued) `primary_failure_mode` raises `TypeError`,
modelled by `Except.error`. -/
def tallyInc (m : List (JVal × Nat)) (k : JVal) :
    Except String (List (JVal × Nat)) :=
  if hashableJVal k then
    .ok (if m.any (fun p => jvalBeq p.1 k) then
           m.map (fun p => if jvalBeq p.1 k then (p.1, p.2 + 1) else p)
         else m ++ [(k, 1)])
  else .error "TypeError"

/-- The failure-mode tally over valid results (reporter.py lines
89-93): `evaluation.get("primary_failure_mode", "Unknown")` counted
verbatim, raising on an unhashable key. -/
def failureModeCounts (valid : List SimResult) :
    Except String (List (JVal × Nat)) :=
  valid.foldlM (fun m r =>
    tallyInc m ((jGet r.evaluation "primary_failure_mode").getD (.s "Unknown"))) []

/-- `sum(evaluation[category].get("score", 0) for category present)` -
the per-result total score of `_aggregate_by_dimension`
(reporter.py lines 138-143). -/
def totalScore (evaluation : List (String × JVal)) : Except String Rat :=
  FAILURE_CATEGORIES.foldlM (fun t c =>
    match jGet evaluation c with
    | none => .ok t
    | some v => do
      let sc ← getScore v
      .ok (t + sc)) 0

/-- The running per-key sums of `_aggregate_by_dimension` before the
averaging pass: `count`, the raw `goal_met` tally, and the sums
accumulated in the `avg_turns` / `avg_total_score` slots. -/
structure DimAcc where
  count : Nat
  goal_met : Nat
  turnsSum : Nat
  scoreSum : Rat

/-- One iteration of the accumulation loop of `_aggregate_by_dimension`
(reporter.py lines 128-143) on the insertion-ordered defaultdict. -/
def dimStep (m : List (String × DimAcc)) (k : String) (gm : Bool)
    (turns : Nat) (score : Rat) : List (String × DimAcc) :=
  let upd : DimAcc → DimAcc := fun a =>
    { count := a.count + 1,
      goal_met := a.goal_met + (if gm then 1 else 0),
      turnsSum := a.turnsSum + turns,
      scoreSum := a.scoreSum + score }
  if m.any (fun p => p.1 == k) then
    m.map (fun p => if p.1 == k then (p.1, upd p.2) else p)
  else m ++ [(k, upd { count := 0, goal_met := 0, turnsSum := 0, scoreSum := 0 })]

/-- The accumulation loop of `_aggregate_by_dimension` over all results;
the total score of each result can raise. -/
def dimFold (dim : SimResult → String) (results : List SimResult) :
    Except String (List (String × DimAcc)) :=
  results.foldlM (fun m r => do
    let ts ← totalScore r.evaluation
    .ok (dimStep m (dim r) r.goal_met r.turns ts)) []

/-- Python's `round(x, 2)` on the averaged fields.  (Python rounds
half-to-even on floats; ties never matter for any property proved here,
so half-up rounding of the rational is used.) -/
def round2 (x : Rat) : Rat := ((round (x * 100) : Int) : Rat) / 100

/-- The per-key output of `_aggregate_by_dimension` after the averaging
pass (reporter.py lines 146-151): `goal_met` is deleted and replaced by
`goal_met_rate`, and the two sum slots become rounded means. -/
structure DimStats where
  count : Nat
  goal_met_rate : Rat
  avg_turns : Rat
  avg_total_score : Rat

/-- The averaging pass of `_aggregate_by_dimension`: every rate or mean
is guarded by `if count > 0 else 0`. -/
def finalizeDim (m : List (String × DimAcc)) : List (String × DimStats) :=
  m.map (fun p =>
    (p.1,
     { count := p.2.count,
       goal_met_rate :=
         if p.2.count > 0 then (p.2.goal_met : Rat) / (p.2.count : Rat) else 0,
       avg_turns :=
         if p.2.count > 0 then round2 ((p.2.turnsSum : Rat) / (p.2.count : Rat)) else 0,
       avg_total_score :=
         if p.2.count > 0 then round2 (p.2.scoreSum / (p.2.count : Rat)) else 0 }))

/-- `EvaluationReporter._aggregate_by_dimension` (reporter.py lines
119-153). -/
def aggregate_by_dimension (results : List SimResult)
    (dim : SimResult → String) : Except String (List (String × DimStats)) :=
  (dimFold dim results).map finalizeDim

/-- The `summary` block of the aggregate report. -/
structure ReportSummary where
  total_simulations : Nat
  successful_simulations : Nat
  failed_simulations : Nat
  goal_met_rate : Rat
  giving_up_rate : Rat
  avg_conversation_turns : Rat

/-- The full dict returned by `aggregate_results` on the success path:
summary, failure analysis and the two dimension breakdowns. -/
structure AggregateReport where
  summary : ReportSummary
  avg_scores_by_category : List (String × Rat)
  worst_performing_categories : List (String × Rat)
  top_failure_modes : List (JVal × Nat)
  scenario_breakdown : List (String × DimStats)
  personality_breakdown : List (String × DimStats)

/-- What `aggregate_results` returns when it returns: either one of the
two explicit error-marker dicts or a report. -/
inductive AggregateOutcome where
  | errorMarker : String → AggregateOutcome
  | report : AggregateReport → AggregateOutcome

/-- `EvaluationReporter.aggregate_results` (reporter.py lines 29-117).
`Except.error` models a raised exception, `Except.ok (.errorMarker m)`
the returned `"error"` dicts for an empty or all-error input, and
`Except.ok (.report r)` the normal report.  The valid/error partition is
by presence of the top-level `"error"` key; every rate is guarded by a
positive-denominator check; the four fallible computations run in
source order (category scores, scenario breakdown, personality
breakdown, failure-mode tally), so the first to raise wins. -/
def aggregate_results (results : List SimResult) :
    Except String AggregateOutcome :=
  if results.isEmpty then .ok (.errorMarker "No results to aggregate")
  else
    let valid_results := results.filter (fun r => r.error.isNone)
    let error_results := results.filter (fun r => r.error.isSome)
    if valid_results.isEmpty then .ok (.errorMarker "No valid results to aggregate")
    else
      let total_simulations := results.length
      let successful_simulations := valid_results.length
      let failed_simulations := error_results.length
      let goal_met_count := (valid_results.filter (fun r => r.goal_met)).length
      let giving_up_count := (valid_results.filter (fun r => r.giving_up)).length
      let avg_turns : Rat :=
        if valid_results.isEmpty = false then
          ((valid_results.map (fun r => (r.turns : Rat))).sum) / (valid_results.length : Rat)
        else 0
      match collectCategoryScores valid_results,
            aggregate_by_dimension valid_results (fun r => r.scenario_id),
            aggregate_by_dimension valid_results (fun r => r.personality_id),
            failureModeCounts valid_results with
      | .error e, _, _, _ => .error e
      | .ok _, .error e, _, _ => .error e
      | .ok _, .ok _, .error e, _ => .error e
      | .ok _, .ok _, .ok _, .error e => .error e
      | .ok category_scores, .ok scenario_stats, .ok personality_stats,
        .ok failure_mode_counts =>
        let avg_category_scores := avgCategoryScores category_scores
        .ok (.report
          { summary :=
              { total_simulations := total_simulations,
                successful_simulations := successful_simulations,
                failed_simulations := failed_simulations,
                goal_met_rate :=
                  if successful_simulations > 0 then
                    (goal_met_count : Rat) / (successful_simulations : Rat)
                  else 0,
                giving_up_rate :=
                  if successful_simulations > 0 then
                    (giving_up_count : Rat) / (successful_simulations : Rat)
                  else 0,
                avg_conversation_turns := round2 avg_turns },
            avg_scores_by_category := avg_category_scores,
            worst_performing_categories := (sortDescRat avg_category_scores).take 5,
            top_failure_modes := (sortDescNat failure_mode_counts).take 10,
            scenario_breakdown := scenario_stats,
            personality_breakdown := personality_stats })

/-! Projections and concrete fixtures used to state and witness the
properties below. -/

/-- The `successful_simulations` field of an aggregate outcome, when it
is a report. -/
def successfulOf (out : Except String AggregateOutcome) : Option Nat :=
  match out with
  | .ok (.report r) => some r.summary.successful_simulations
  | _ => none

/-- The goal-met and giving-up rate fields of an aggregate outcome, when
it is a report. -/
def summaryRates (out : Except String AggregateOutcome) : Option (Rat × Rat) :=
  match out with
  | .ok (.report r) => some (r.summary.goal_met_rate, r.summary.giving_up_rate)
  | _ => none

instance : Inhabited AggregateReport :=
  ⟨{ summary := { total_simulations := 0, successful_simulations := 0,
                  failed_simulations := 0, goal_met_rate := 0,
                  giving_up_rate := 0, avg_conversation_turns := 0 },
     avg_scores_by_category := [], worst_performing_categories := [],
     top_failure_modes := [], scenario_breakdown := [],
     personality_breakdown := [] }⟩

/-- The report inside an aggregate outcome, when there is one. -/
def reportOf (out : Except String AggregateOutcome) : AggregateReport :=
  match out with
  | .ok (.report r) => r
  | _ => default

/-- An evaluation that conforms to the judge schema as far as the
aggregator reads it: every value stored under one of the 12 category
keys is a dict whose `score`, if present, is numeric (so
`evaluation[category].get("score", 0)` and the later summation cannot
raise), and the `primary_failure_mode` value, if present, is hashable
(so the `failure_mode_counts` dict lookup cannot raise). -/
def wellTypedEval (ev : List (String × JVal)) : Prop :=
  (∀ c ∈ FAILURE_CATEGORIES, ∀ v, jGet ev c = some v → ∃ x, getScore v = .ok x) ∧
  (∀ v, jGet ev "primary_failure_mode" = some v → hashableJVal v = true)

/-- A driver stub: the agent always answers `"a"`. -/
def agentA : List Message → String → String := fun _ _ => "a"

/-- A driver stub: the user always continues (no flag set). -/
def userContinue : List Message → String → UserTurn :=
  fun _ _ => ⟨"u", false, false⟩

/-- A driver stub: the user reports the goal met on its first reply. -/
def userGoal : List Message → String → UserTurn :=
  fun _ _ => ⟨"u", true, false⟩

/-- A driver stub: the user reports goal met and giving up together. -/
def userBoth : List Message → String → UserTurn :=
  fun _ _ => ⟨"u", true, true⟩

/-- A judge stub whose decoded evaluation is the empty dict. -/
def judgeEmpty : List Message → List (String × JVal) := fun _ => []

/-- A concrete valid result entry (no top-level `error` key) whose
evaluation is the empty dict - e.g. what `run_single_conversation`
returns when the judge's decoded output is `\x7b\x7d`. -/
def demoResult : SimResult :=
  { scenario_id := "order_delay", personality_id := "frustrated_impatient",
    conversation_history := [], turns := 0, goal_met := false,
    giving_up := false, evaluation := [], error := none }

/-- A concrete error stub entry, as appended by `run_batch_simulations`
for a raising run. -/
def errResult : SimResult :=
  { scenario_id := "order_delay", personality_id := "frustrated_impatient",
    conversation_history := [], turns := 0, goal_met := false,
    giving_up := false, evaluation := [], error := some "boom" }

/-- The report the aggregator produces for the single valid entry
`demoResult`. -/
def demoReport : AggregateReport := reportOf (aggregate_results [demoResult])

/-- A fixed `random.choice` outcome for a demonstration batch. -/
def demoPick : Nat → String × String :=
  fun _ => ("order_delay", "frustrated_impatient")

/-- A batch of runs in which exactly run 1 (the second of three) raises
inside the Controller call and the others succeed. -/
def demoRunOne : Nat → String → String → Except String SimResult :=
  fun i _ _ => if i == 1 then .error "Agent adapter failure" else .ok demoResult

/-! Helper lemmas about transcripts extended by one message. -/

theorem agentCount_append (h : List Message) (m : Message) :
    agentCount (h ++ [m]) =
      agentCount h + (if m.role == "assistant" then 1 else 0) := by
  simp only [agentCount, List.filter_append, List.length_append]
  by_cases hm : m.role == "assistant" <;> simp [List.filter, hm]

theorem headRole_append (h : List Message) (m : Message) (hne : h ≠ []) :
    headRole (h ++ [m]) = headRole h := by
  cases h with
  | nil => exact absurd rfl hne
  | cons a t => simp [headRole]

theorem lastRole_append (h : List Message) (m : Message) :
    lastRole (h ++ [m]) = some m.role := by
  simp [lastRole, List.getLast?_concat]

theorem alternating_append (h : List Message) (m : Message) (r : String)
    (ha : alternating h = true) (hl : lastRole h = some r)
    (hne : r ≠ m.role) : alternating (h ++ [m]) = true := by
  induction h with
  | nil => simp [lastRole] at hl
  | cons a t ih =>
    cases t with
    | nil =>
      simp [lastRole] at hl
      subst hl
      simp [alternating, bne_iff_ne]
      exact hne
    | cons b t2 =>
      have hl2 : lastRole (b :: t2) = some r := by
        simpa [lastRole, List.getLast?_cons_cons] using hl
      have ha2 : alternating (b :: t2) = true := by
        simp [alternating, Bool.and_eq_true] at ha
        exact ha.2
      have hab : (a.role != b.role) = true := by
        simp [alternating, Bool.and_eq_true] at ha
        simpa [bne_iff_ne] using ha.1
      have := ih ha2 hl2
      simp only [List.cons_append, alternating, Bool.and_eq_true]
      constructor
      · simpa using hab
      · simpa using this

/-- Main invariant of the conversation loop.  At loop entry the history
has one more message than twice the turn counter, has exactly `turns`
agent messages, begins and ends on a user message and alternates roles;
the conclusion describes the two possible exits: a run with both flags
still false ends by the turn-limit break with `turns = maxTurns - 1`,
exactly `maxTurns` agent messages, `2 * maxTurns` total messages and an
agent message last, while a run ended by a flag keeps the entry shape:
`turns + 1 ≤ maxTurns` with `turns` agent messages, `2 * turns + 1`
total messages and a user message last. -/
theorem convLoop_invariant
    (agent : List Message → String → String)
    (user : List Message → String → UserTurn)
    (initialMessage : String) (maxTurns : Nat) :
    ∀ (fuel : Nat) (s : ConvState),
      maxTurns - s.turns ≤ fuel →
      s.turns + 1 ≤ maxTurns →
      s.history.length = 2 * s.turns + 1 →
      agentCount s.history = s.turns →
      headRole s.history = some "user" →
      lastRole s.history = some "user" →
      alternating s.history = true →
      (alternating (convLoop agent user initialMessage maxTurns fuel s).history = true ∧
       headRole (convLoop agent user initialMessage maxTurns fuel s).history = some "user" ∧
       ((convLoop agent user initialMessage maxTurns fuel s).goal_met = false ∧
        (convLoop agent user initialMessage maxTurns fuel s).giving_up = false →
          (convLoop agent user initialMessage maxTurns fuel s).turns = maxTurns - 1 ∧
          agentCount (convLoop agent user initialMessage maxTurns fuel s).history = maxTurns ∧
          (convLoop agent user initialMessage maxTurns fuel s).history.length = 2 * maxTurns ∧
          lastRole (convLoop agent user initialMessage maxTurns fuel s).history = some "assistant") ∧
       (¬((convLoop agent user initialMessage maxTurns fuel s).goal_met = false ∧
          (convLoop agent user initialMessage maxTurns fuel s).giving_up = false) →
          (convLoop agent user initialMessage maxTurns fuel s).turns + 1 ≤ maxTurns ∧
          agentCount (convLoop agent user initialMessage maxTurns fuel s).history =
            (convLoop agent user initialMessage maxTurns fuel s).turns ∧
          (convLoop agent user initialMessage maxTurns fuel s).history.length =
            2 * (convLoop agent user initialMessage maxTurns fuel s).turns + 1 ∧
          lastRole (convLoop agent user initialMessage maxTurns fuel s).history = some "user")) := by
  intro fuel
  induction fuel with
  | zero =>
    intro s hfuel hturn _ _ _ _ _
    omega
  | succ fuel ih =>
    intro s hfuel hturn hlen hag hhead hlast halt
    by_cases hcond : s.turns < maxTurns ∧ s.goal_met = false ∧ s.giving_up = false
    · rw [convLoop, if_pos hcond]
      have hne : s.history ≠ [] := by
        intro h
        rw [h] at hlen
        simp at hlen
      by_cases hbrk : s.turns ≥ maxTurns - 1
      · rw [if_pos hbrk]
        have hteq : s.turns = maxTurns - 1 := by omega
        refine ⟨?_, ?_, ?_, ?_⟩
        · exact alternating_append _ _ "user" halt hlast (by simp)
        · simpa [headRole_append _ _ hne] using hhead
        · intro _
          refine ⟨hteq, ?_, ?_, ?_⟩
          · simp [agentCount_append, hag] <;> omega
          · simp [hlen] <;> omega
          · exact lastRole_append _ _
        · intro hcontra
          exact absurd ⟨hcond.2.1, hcond.2.2⟩ hcontra
      · rw [if_neg hbrk]
        have hlt2 : s.turns + 2 ≤ maxTurns := by omega
        set hist1 := s.history ++
          [⟨"assistant", agent s.history
            (if s.turns == 0 then initialMessage
             else ((s.history.getLast?).map Message.content).getD "")⟩] with hh1
        set u := user hist1 (agent s.history
            (if s.turns == 0 then initialMessage
             else ((s.history.getLast?).map Message.content).getD "")) with hu
        have halt1 : alternating hist1 = true :=
          alternating_append _ _ "user" halt hlast (by simp)
        have hlast1 : lastRole hist1 = some "assistant" := lastRole_append _ _
        have hhead1 : headRole hist1 = some "user" := by
          simpa [hh1, headRole_append _ _ hne] using hhead
        have hist1ne : hist1 ≠ [] := by
          simp [hh1]
        have hlen1 : hist1.length = 2 * s.turns + 2 := by
          simp [hh1, List.length_append, hlen]
        have hag1 : agentCount hist1 = s.turns + 1 := by
          simp [hh1, agentCount_append, hag]
        have halt2 : alternating (hist1 ++ [⟨"user", u.message⟩]) = true :=
          alternating_append _ _ "assistant" halt1 hlast1 (by simp)
        have hres := ih { history := hist1 ++ [⟨"user", u.message⟩],
                          turns := s.turns + 1,
                          goal_met := u.goal_met, giving_up := u.giving_up }
          (by simp only; omega) (by simp only; omega)
          (by simp [hlen1] <;> omega)
          (by simp [agentCount_append, hag1] <;> omega)
          (by simpa [headRole_append _ _ hist1ne] using hhead1)
          (by simp [lastRole_append])
          halt2
        exact hres
    · rw [convLoop, if_neg hcond]
      have hflag : ¬(s.goal_met = false ∧ s.giving_up = false) := by
        intro h
        exact hcond ⟨by omega, h.1, h.2⟩
      exact ⟨halt, hhead, fun h => absurd h hflag,
        fun _ => ⟨hturn, hag, hlen, hlast⟩⟩


/-- The loop invariant instantiated at the real starting state of
`run_single_conversation`: opening user message, zero turns, both flags
false. -/
theorem runConversation_spec
    (agent : List Message → String → String)
    (user : List Message → String → UserTurn)
    (initialMessage : String) (B : Nat) (hB : 1 ≤ B) :
    alternating (runConversation agent user initialMessage B).history = true ∧
    headRole (runConversation agent user initialMessage B).history = some "user" ∧
    ((runConversation agent user initialMessage B).goal_met = false ∧
     (runConversation agent user initialMessage B).giving_up = false →
       (runConversation agent user initialMessage B).turns = B - 1 ∧
       agentCount (runConversation agent user initialMessage B).history = B ∧
       (runConversation agent user initialMessage B).history.length = 2 * B ∧
       lastRole (runConversation agent user initialMessage B).history = some "assistant") ∧
    (¬((runConversation agent user initialMessage B).goal_met = false ∧
       (runConversation agent user initialMessage B).giving_up = false) →
       (runConversation agent user initialMessage B).turns + 1 ≤ B ∧
       agentCount (runConversation agent user initialMessage B).history =
         (runConversation agent user initialMessage B).turns ∧
       (runConversation agent user initialMessage B).history.length =
         2 * (runConversation agent user initialMessage B).turns + 1 ∧
       lastRole (runConversation agent user initialMessage B).history = some "user") := by
  have h := convLoop_invariant agent user initialMessage B B
    { history := [⟨"user", initialMessage⟩], turns := 0,
      goal_met := false, giving_up := false }
    (by simp) (by simpa using hB) (by simp) rfl rfl rfl rfl
  simpa [runConversation] using h

/-- Claim C3: for every turn budget B ≥ 1 and every pair of drivers, the
completed conversation has at most B agent messages, its transcript
begins with a user-role message, and roles strictly alternate. -/
theorem C3_transcript_shape
    (agent : List Message → String → String)
    (user : List Message → String → UserTurn)
    (initialMessage : String) (B : Nat) (hB : 1 ≤ B) :
    agentCount (runConversation agent user initialMessage B).history ≤ B ∧
    headRole (runConversation agent user initialMessage B).history = some "user" ∧
    alternating (runConversation agent user initialMessage B).history = true := by
  obtain ⟨halt, hhead, hlimit, hflag⟩ := runConversation_spec agent user initialMessage B hB
  refine ⟨?_, hhead, halt⟩
  by_cases hgm : (runConversation agent user initialMessage B).goal_met = false ∧
      (runConversation agent user initialMessage B).giving_up = false
  · exact (hlimit hgm).2.1.le
  · obtain ⟨ht, hag, _, _⟩ := hflag hgm
    omega

/-- Witness for C3 at budget 1 with concrete drivers. -/
theorem C3_transcript_shape_witness :
    1 ≤ 1 ∧
    (agentCount (runConversation agentA userContinue "init" 1).history ≤ 1 ∧
     headRole (runConversation agentA userContinue "init" 1).history = some "user" ∧
     alternating (runConversation agentA userContinue "init" 1).history = true) :=
  ⟨Nat.le_refl 1, C3_transcript_shape agentA userContinue "init" 1 (Nat.le_refl 1)⟩

/-- Claim C4, counterexample: with budget 5 and drivers that never set a
flag, the run ends by turn limit (both flags false) and the transcript
has 10 messages - an even number above the claimed bound of 9. -/
theorem C4_counterexample :
    (runConversation agentA userContinue "init" 5).history.length = 10 ∧
    (runConversation agentA userContinue "init" 5).goal_met = false ∧
    (runConversation agentA userContinue "init" 5).giving_up = false ∧
    ¬ Odd (runConversation agentA userContinue "init" 5).history.length ∧
    ¬ (runConversation agentA userContinue "init" 5).history.length ≤ 9 := by
  refine ⟨rfl, rfl, rfl, ?_, ?_⟩ <;> · rw [show (runConversation agentA userContinue "init" 5).history.length = 10 from rfl]; decide

/-- Claim C4, amended: with budget 5, a run that terminates by turn
limit (both flags false) has exactly 2·5 = 10 messages - an even count -
and ends on an agent message; a run terminated by goal met or giving up
has an odd number of messages, at most 2·5 − 1 = 9, and ends on a user
message. -/
theorem C4_budget5_shape
    (agent : List Message → String → String)
    (user : List Message → String → UserTurn)
    (initialMessage : String) :
    ((runConversation agent user initialMessage 5).goal_met = false ∧
     (runConversation agent user initialMessage 5).giving_up = false →
       (runConversation agent user initialMessage 5).history.length = 10 ∧
       lastRole (runConversation agent user initialMessage 5).history = some "assistant") ∧
    (¬((runConversation agent user initialMessage 5).goal_met = false ∧
       (runConversation agent user initialMessage 5).giving_up = false) →
       Odd (runConversation agent user initialMessage 5).history.length ∧
       (runConversation agent user initialMessage 5).history.length ≤ 9 ∧
       lastRole (runConversation agent user initialMessage 5).history = some "user") := by
  obtain ⟨-, -, hlimit, hflag⟩ :=
    runConversation_spec agent user initialMessage 5 (by omega)
  constructor
  · intro hgm
    obtain ⟨-, -, hlen, hlast⟩ := hlimit hgm
    exact ⟨hlen, hlast⟩
  · intro hgm
    obtain ⟨ht, -, hlen, hlast⟩ := hflag hgm
    refine ⟨⟨(runConversation agent user initialMessage 5).turns, by omega⟩, by omega, hlast⟩

/-- Witness for C4 (amended): both termination shapes at budget 5, with
drivers that run to the turn limit and drivers whose user reports the
goal met at once. -/
theorem C4_budget5_shape_witness :
    ((runConversation agentA userContinue "init" 5).history.length = 10 ∧
     lastRole (runConversation agentA userContinue "init" 5).history = some "assistant") ∧
    (Odd (runConversation agentA userGoal "init" 5).history.length ∧
     (runConversation agentA userGoal "init" 5).history.length ≤ 9 ∧
     lastRole (runConversation agentA userGoal "init" 5).history = some "user") :=
  ⟨(C4_budget5_shape agentA userContinue "init").1 ⟨rfl, rfl⟩,
   (C4_budget5_shape agentA userGoal "init").2 (by decide)⟩

/-- Claim C5, counterexample: invoking the Controller with an explicit
turn budget of 0 does not yield zero agent replies - `max_turns or
self.max_turns` (simulator.py line 39) treats 0 as falsy and coerces it
to the default 10, so the run reaches the turn limit with 10 agent
replies and 20 messages. -/
theorem C5_counterexample :
    agentCount (run_single_conversation agentA userContinue judgeEmpty
        "s" "p" "init" (some 0)).conversation_history = 10 ∧
    (run_single_conversation agentA userContinue judgeEmpty
        "s" "p" "init" (some 0)).conversation_history.length = 20 :=
  ⟨rfl, rfl⟩

/-- Claim C5, amended: an explicit budget of 1 still yields a
well-formed transcript of the opening user message plus exactly one
agent reply, but an explicit budget of 0 is falsy in Python and the
`or`-defaulting coerces it - like the `None` default - to the default
budget 10: the budget-0 run is identical to the default run, and when
it terminates by turn limit it has 10 agent replies rather than
zero. -/
theorem C5_budget_defaulting
    (agent : List Message → String → String)
    (user : List Message → String → UserTurn)
    (judge : List Message → List (String × JVal))
    (scen pers init : String) :
    (run_single_conversation agent user judge scen pers init
        (some 1)).conversation_history =
      [⟨"user", init⟩, ⟨"assistant", agent [⟨"user", init⟩] init⟩] ∧
    effectiveMaxTurns (some 0) = 10 ∧
    effectiveMaxTurns none = 10 ∧
    run_single_conversation agent user judge scen pers init (some 0) =
      run_single_conversation agent user judge scen pers init none ∧
    ((run_single_conversation agent user judge scen pers init
        (some 0)).goal_met = false ∧
     (run_single_conversation agent user judge scen pers init
        (some 0)).giving_up = false →
       agentCount (run_single_conversation agent user judge scen pers init
         (some 0)).conversation_history = 10) := by
  refine ⟨rfl, rfl, rfl, rfl, ?_⟩
  intro hflags
  obtain ⟨-, -, hlimit, -⟩ := runConversation_spec agent user init 10 (by omega)
  exact (hlimit hflags).2.1

/-- Witness for C5 (amended): a concrete budget-0 turn-limit run ends
with exactly 10 agent replies. -/
theorem C5_budget_defaulting_witness :
    ((run_single_conversation agentA userContinue judgeEmpty "s" "p" "init"
        (some 0)).goal_met = false ∧
     (run_single_conversation agentA userContinue judgeEmpty "s" "p" "init"
        (some 0)).giving_up = false) ∧
    agentCount (run_single_conversation agentA userContinue judgeEmpty
        "s" "p" "init" (some 0)).conversation_history = 10 :=
  ⟨⟨rfl, rfl⟩,
   (C5_budget_defaulting agentA userContinue judgeEmpty
     "s" "p" "init").2.2.2.2 ⟨rfl, rfl⟩⟩

/-- Claim C10: for every explicit budget B ≥ 1, the returned `turns`
field is at most B − 1; on a turn-limit run it is exactly B − 1 while
the transcript has B agent messages, so `turns` differs from the agent
message count there. -/
theorem C10_turns_accounting
    (agent : List Message → String → String)
    (user : List Message → String → UserTurn)
    (initialMessage : String) (B : Nat) (hB : 1 ≤ B) :
    (runConversation agent user initialMessage B).turns ≤ B - 1 ∧
    ((runConversation agent user initialMessage B).goal_met = false ∧
     (runConversation agent user initialMessage B).giving_up = false →
       (runConversation agent user initialMessage B).turns = B - 1 ∧
       agentCount (runConversation agent user initialMessage B).history = B ∧
       (runConversation agent user initialMessage B).turns ≠
         agentCount (runConversation agent user initialMessage B).history) := by
  obtain ⟨-, -, hlimit, hflag⟩ := runConversation_spec agent user initialMessage B hB
  constructor
  · by_cases hgm : (runConversation agent user initialMessage B).goal_met = false ∧
        (runConversation agent user initialMessage B).giving_up = false
    · exact (hlimit hgm).1.le
    · obtain ⟨ht, -, -, -⟩ := hflag hgm
      omega
  · intro hgm
    obtain ⟨ht, hag, -, -⟩ := hlimit hgm
    exact ⟨ht, hag, by omega⟩

/-- Witness for C10 at budget 3 with drivers that reach the turn
limit. -/
theorem C10_turns_accounting_witness :
    1 ≤ 3 ∧
    ((runConversation agentA userContinue "init" 3).turns ≤ 3 - 1 ∧
     ((runConversation agentA userContinue "init" 3).turns = 3 - 1 ∧
      agentCount (runConversation agentA userContinue "init" 3).history = 3 ∧
      (runConversation agentA userContinue "init" 3).turns ≠
        agentCount (runConversation agentA userContinue "init" 3).history)) :=
  ⟨by omega,
   ⟨(C10_turns_accounting agentA userContinue "init" 3 (by omega)).1,
    (C10_turns_accounting agentA userContinue "init" 3 (by omega)).2 ⟨rfl, rfl⟩⟩⟩

/-! Lemmas about the Python `find` model. -/

theorem pyFind_zero (t needle : List Char) (i : Nat)
    (h : strFind t needle = some i) : pyFind t needle 0 = (i : Int) := by
  simp [pyFind, h]

theorem pyFind_of_strFind (t needle : List Char) (start j : Nat)
    (h : strFind (t.drop start) needle = some j) :
    pyFind t needle start = (start : Int) + j := by
  simp [pyFind, h]

/-- Claim C1, counterexample: a decoded result missing all 12 categories
is returned as-is (only the `meta` entry is added), and the fallback
produced on a decode failure carries only one of the 12 category keys.
The decoder stub `fun _ => some []` is `json.loads` on the response
`"\x7b\x7d"`, which decodes to the empty dict. -/
theorem C1_counterexample :
    evaluate_conversation (fun _ => some []) "boom" 0 ("\x7b\x7d".toList) =
      [metaEntry 0] ∧
    hasAllCategories
      (evaluate_conversation (fun _ => some []) "boom" 0 ("\x7b\x7d".toList)) = false ∧
    hasAllCategories (fallbackEvaluation "boom") = false :=
  ⟨rfl, rfl, rfl⟩

/-- Claim C1, amended: the judge's evaluate performs no category
validation - a successfully decoded result is returned as-is with only
the `meta` entry appended, whatever keys it has - and the degraded
fallback returned on any decode/evaluation failure contains exactly one
of the 12 category keys, `technical_failures`, with score 5 and
confidence 0.0, alongside the error and the three summary fields. -/
theorem C1_judge_no_validation
    (decode : List Char → Option (List (String × JVal)))
    (errMsg : String) (tokens : Int) (rawResponse : List Char) :
    (∀ ev, decode (extractJson rawResponse) = some ev →
       evaluate_conversation decode errMsg tokens rawResponse =
         ev ++ [metaEntry tokens]) ∧
    (decode (extractJson rawResponse) = none →
       evaluate_conversation decode errMsg tokens rawResponse =
         fallbackEvaluation errMsg) ∧
    FAILURE_CATEGORIES.filter
        (fun c => (fallbackEvaluation errMsg).any (fun p => p.1 == c)) =
      ["technical_failures"] ∧
    jGet (fallbackEvaluation errMsg) "technical_failures" =
      some (.o [("score", .i 5),
                ("justification", .s "Judge failed to evaluate"),
                ("confidence", .q 0)]) := by
  refine ⟨?_, ?_, rfl, rfl⟩
  · intro ev hev
    simp [evaluate_conversation, hev]
  · intro hnone
    simp [evaluate_conversation, hnone]

/-- Witness for C1 (amended): a decoder that succeeds with a one-key
dict and a decoder that fails, on the same raw response. -/
theorem C1_judge_no_validation_witness :
    ((fun (_ : List Char) => some [("a", JVal.i 1)])
        (extractJson ("\x7b\x7d".toList)) = some [("a", JVal.i 1)] ∧
     evaluate_conversation (fun _ => some [("a", JVal.i 1)]) "e" 7 ("\x7b\x7d".toList) =
       [("a", JVal.i 1)] ++ [metaEntry 7]) ∧
    ((fun (_ : List Char) => (none : Option (List (String × JVal))))
        (extractJson ("\x7b\x7d".toList)) = none ∧
     evaluate_conversation (fun _ => none) "e" 7 ("\x7b\x7d".toList) =
       fallbackEvaluation "e") :=
  ⟨⟨rfl, (C1_judge_no_validation (fun _ => some [("a", JVal.i 1)]) "e" 7
      ("\x7b\x7d".toList)).1 [("a", JVal.i 1)] rfl⟩,
   ⟨rfl, (C1_judge_no_validation (fun _ => none) "e" 7
      ("\x7b\x7d".toList)).2.1 rfl⟩⟩

/-- Claim C7: the extraction step's detection order.  If the labeled
fence `` ```json `` occurs (first occurrence at `i`) and a further fence
follows it, the extracted text is exactly the characters strictly
between the end of the label marker and that next fence (then stripped);
otherwise, if any fence `` ``` `` occurs (first occurrence at `i`) and a
further fence follows it, the extracted text is the characters strictly
between the two markers (then stripped); otherwise the entire response
is used. -/
theorem C7_extraction_order (t : List Char) :
    (∀ i k, strFind t fenceJson = some i →
       strFind (t.drop (i + 7)) fenceMark = some k →
       extractJson t = pyStrip ((t.drop (i + 7)).take k)) ∧
    (∀ i k, strFind t fenceJson = none →
       strFind t fenceMark = some i →
       strFind (t.drop (i + 3)) fenceMark = some k →
       extractJson t = pyStrip ((t.drop (i + 3)).take k)) ∧
    (strFind t fenceJson = none → strFind t fenceMark = none →
       extractJson t = t) := by
  refine ⟨?_, ?_, ?_⟩
  · intro i k h1 h2
    have hc : containsSub t fenceJson = true := by simp [containsSub, h1]
    rw [extractJson, if_pos hc, pyFind_zero t fenceJson i h1]
    have hsn : ((i : Int) + 7).toNat = i + 7 := by omega
    simp only [hsn]
    rw [pyFind_of_strFind t fenceMark (i + 7) k h2]
    have hstop : ¬ (((i + 7 : Nat) : Int) + (k : Int) < 0) := by omega
    rw [pySlice, if_neg hstop]
    have htn : (((i + 7 : Nat) : Int) + (k : Int)).toNat = i + 7 + k := by omega
    rw [htn, List.drop_take]
    congr 2
    omega
  · intro i k h0 h1 h2
    have hcj : containsSub t fenceJson = false := by simp [containsSub, h0]
    have hc : containsSub t fenceMark = true := by simp [containsSub, h1]
    rw [extractJson, if_neg (by simp [hcj]), if_pos hc,
      pyFind_zero t fenceMark i h1]
    have hsn : ((i : Int) + 3).toNat = i + 3 := by omega
    simp only [hsn]
    rw [pyFind_of_strFind t fenceMark (i + 3) k h2]
    have hstop : ¬ (((i + 3 : Nat) : Int) + (k : Int) < 0) := by omega
    rw [pySlice, if_neg hstop]
    have htn : (((i + 3 : Nat) : Int) + (k : Int)).toNat = i + 3 + k := by omega
    rw [htn, List.drop_take]
    congr 2
    omega
  · intro h0 h1
    have hcj : containsSub t fenceJson = false := by simp [containsSub, h0]
    have hcm : containsSub t fenceMark = false := by simp [containsSub, h1]
    rw [extractJson, if_neg (by simp [hcj]), if_neg (by simp [hcm])]

/-- Witness for C7: all three detection cases on concrete responses. -/
theorem C7_extraction_order_witness :
    (strFind ("x```json A``` rest".toList) fenceJson = some 1 ∧
     strFind (("x```json A``` rest".toList).drop (1 + 7)) fenceMark = some 2 ∧
     extractJson ("x```json A``` rest".toList) =
       pyStrip ((("x```json A``` rest".toList).drop (1 + 7)).take 2)) ∧
    (strFind ("x``` B``` rest".toList) fenceJson = none ∧
     strFind ("x``` B``` rest".toList) fenceMark = some 1 ∧
     strFind (("x``` B``` rest".toList).drop (1 + 3)) fenceMark = some 2 ∧
     extractJson ("x``` B``` rest".toList) =
       pyStrip ((("x``` B``` rest".toList).drop (1 + 3)).take 2)) ∧
    (strFind ("plain".toList) fenceJson = none ∧
     strFind ("plain".toList) fenceMark = none ∧
     extractJson ("plain".toList) = "plain".toList) :=
  ⟨⟨by decide, by decide,
    (C7_extraction_order ("x```json A``` rest".toList)).1 1 2 (by decide) (by decide)⟩,
   ⟨by decide, by decide, by decide,
    (C7_extraction_order ("x``` B``` rest".toList)).2.1 1 2 (by decide) (by decide) (by decide)⟩,
   ⟨by decide, by decide,
    (C7_extraction_order ("plain".toList)).2.2 (by decide) (by decide)⟩⟩

/-! Lemmas about the aggregator. -/

/-- A division of a smaller count by a larger positive count is a rate
in the unit interval. -/
theorem rateBound (a b : Nat) (hab : a ≤ b) (hb : 0 < b) :
    0 ≤ (a : Rat) / (b : Rat) ∧ (a : Rat) / (b : Rat) ≤ 1 :=
  ⟨div_nonneg (Nat.cast_nonneg a) (Nat.cast_nonneg b),
   (div_le_one (by exact_mod_cast hb)).mpr (by exact_mod_cast hab)⟩

/-- A category fold (`totalScore` / `addResultScores`) over an
evaluation whose category values are well typed cannot raise, whatever
it accumulates. -/
theorem catFold_ok {β : Type} (ev : List (String × JVal)) (g : β → String → Rat → β) :
    ∀ (l : List String),
      (∀ c ∈ l, ∀ v, jGet ev c = some v → ∃ x, getScore v = .ok x) →
      ∀ (acc : β),
        ∃ out, (List.foldlM (fun a c =>
          match jGet ev c with
          | none => Except.ok a
          | some v => do
            let sc ← getScore v
            Except.ok (g a c sc)) acc l : Except String β) = .ok out := by
  intro l
  induction l with
  | nil => exact fun _ acc => ⟨acc, rfl⟩
  | cons c cs ih =>
    intro hl acc
    have hcs : ∀ c ∈ cs, ∀ v, jGet ev c = some v → ∃ x, getScore v = .ok x :=
      fun c hc => hl c (List.mem_cons_of_mem _ hc)
    cases hv : jGet ev c with
    | none =>
      obtain ⟨out, hout⟩ := ih hcs acc
      refine ⟨out, ?_⟩
      rw [List.foldlM_cons]
      simp only [hv]
      simpa using hout
    | some v =>
      obtain ⟨x, hx⟩ := hl c (List.mem_cons_self c cs) v hv
      obtain ⟨out, hout⟩ := ih hcs (g acc c x)
      refine ⟨out, ?_⟩
      rw [List.foldlM_cons]
      simp only [hv, hx]
      simpa using hout

/-- `totalScore` cannot raise on a well-typed evaluation. -/
theorem totalScore_ok (ev : List (String × JVal)) (h : wellTypedEval ev) :
    ∃ x, totalScore ev = .ok x :=
  catFold_ok ev (fun t _ sc => t + sc) FAILURE_CATEGORIES h.1 0

/-- `addResultScores` cannot raise on a well-typed evaluation. -/
theorem addResultScores_ok (acc : List (String × List Rat))
    (ev : List (String × JVal)) (h : wellTypedEval ev) :
    ∃ out, addResultScores acc ev = .ok out :=
  catFold_ok ev ddAppend FAILURE_CATEGORIES h.1 acc

/-- `collectCategoryScores` cannot raise when every evaluation is
well typed. -/
theorem collectCategoryScores_ok (rs : List SimResult)
    (h : ∀ r ∈ rs, wellTypedEval r.evaluation) :
    ∃ out, collectCategoryScores rs = .ok out := by
  suffices hgen : ∀ (acc : List (String × List Rat)),
      ∃ out, (List.foldlM (fun a r => addResultScores a r.evaluation) acc rs :
        Except String (List (String × List Rat))) = .ok out from hgen []
  induction rs with
  | nil => exact fun acc => ⟨acc, rfl⟩
  | cons r rest ih =>
    intro acc
    obtain ⟨mid, hmid⟩ := addResultScores_ok acc r.evaluation (h r (List.mem_cons_self r rest))
    obtain ⟨out, hout⟩ :=
      ih (fun x hx => h x (List.mem_cons_of_mem _ hx)) mid
    refine ⟨out, ?_⟩
    rw [List.foldlM_cons]
    simp only [hmid]
    simpa using hout

/-- One `dimStep` preserves the per-key bound of the goal-met tally by
the count. -/
theorem dimStep_inv (m : List (String × DimAcc)) (k : String) (gm : Bool)
    (turns : Nat) (score : Rat)
    (h : ∀ p ∈ m, p.2.goal_met ≤ p.2.count) :
    ∀ p ∈ dimStep m k gm turns score, p.2.goal_met ≤ p.2.count := by
  intro p hp
  unfold dimStep at hp
  by_cases hk : m.any (fun p => p.1 == k)
  · rw [if_pos hk] at hp
    obtain ⟨q, hq, rfl⟩ := List.mem_map.mp hp
    by_cases hqk : q.1 == k
    · have := h q hq
      simp only [hqk, if_pos]
      cases gm <;> simp <;> omega
    · simp only [hqk]
      simpa using h q hq
  · rw [if_neg hk] at hp
    rcases List.mem_append.mp hp with hold | hnew
    · exact h p hold
    · simp only [List.mem_singleton] at hnew
      subst hnew
      cases gm <;> simp

/-- Every successful `dimFold` satisfies the per-key goal-met bound. -/
theorem dimFold_inv (dim : SimResult → String) (rs : List SimResult)
    (m : List (String × DimAcc)) (h : dimFold dim rs = .ok m) :
    ∀ p ∈ m, p.2.goal_met ≤ p.2.count := by
  suffices hgen : ∀ (acc : List (String × DimAcc)),
      (∀ p ∈ acc, p.2.goal_met ≤ p.2.count) →
      ∀ m, (List.foldlM (fun m r => do
          let ts ← totalScore r.evaluation
          Except.ok (dimStep m (dim r) r.goal_met r.turns ts)) acc rs :
        Except String (List (String × DimAcc))) = .ok m →
      ∀ p ∈ m, p.2.goal_met ≤ p.2.count by
    exact hgen [] (by simp) m h
  clear h m
  induction rs with
  | nil =>
    intro acc hacc m hm
    simp only [List.foldlM_nil] at hm
    cases hm
    exact hacc
  | cons r rest ih =>
    intro acc hacc m hm
    rw [List.foldlM_cons, ] at hm
    cases hts : totalScore r.evaluation with
    | error e =>
      rw [hts] at hm
      have hm2 : (Except.error e : Except String (List (String × DimAcc))) =
          Except.ok m := hm
      exact absurd hm2 (by simp)
    | ok ts =>
      rw [hts] at hm
      have hm2 : (List.foldlM (fun m r => do
          let ts ← totalScore r.evaluation
          Except.ok (dimStep m (dim r) r.goal_met r.turns ts))
          (dimStep acc (dim r) r.goal_met r.turns ts) rest :
        Except String (List (String × DimAcc))) = Except.ok m := hm
      exact ih (dimStep acc (dim r) r.goal_met r.turns ts)
        (dimStep_inv acc (dim r) r.goal_met r.turns ts hacc) m hm2

/-- `dimFold` cannot raise when every evaluation is well typed. -/
theorem dimFold_ok (dim : SimResult → String) (rs : List SimResult)
    (h : ∀ r ∈ rs, wellTypedEval r.evaluation) :
    ∃ m, dimFold dim rs = .ok m := by
  suffices hgen : ∀ (acc : List (String × DimAcc)),
      ∃ m, (List.foldlM (fun m r => do
          let ts ← totalScore r.evaluation
          Except.ok (dimStep m (dim r) r.goal_met r.turns ts)) acc rs :
        Except String (List (String × DimAcc))) = .ok m from hgen []
  induction rs with
  | nil => exact fun acc => ⟨acc, rfl⟩
  | cons r rest ih =>
    intro acc
    obtain ⟨ts, hts⟩ := totalScore_ok r.evaluation (h r (List.mem_cons_self r rest))
    obtain ⟨m, hm⟩ := ih (fun x hx => h x (List.mem_cons_of_mem _ hx))
      (dimStep acc (dim r) r.goal_met r.turns ts)
    refine ⟨m, ?_⟩
    rw [List.foldlM_cons, hts]
    exact hm

/-- Inversion of `aggregate_by_dimension`: a successful call is a
successful `dimFold` followed by the averaging pass. -/
theorem aggregate_by_dimension_inv (rs : List SimResult)
    (dim : SimResult → String) (st : List (String × DimStats))
    (h : aggregate_by_dimension rs dim = .ok st) :
    ∃ acc, dimFold dim rs = .ok acc ∧ st = finalizeDim acc := by
  unfold aggregate_by_dimension at h
  cases hacc : dimFold dim rs with
  | error e => rw [hacc] at h; simp [Except.map] at h
  | ok acc =>
    rw [hacc] at h
    simp only [Except.map] at h
    exact ⟨acc, rfl, by cases h; rfl⟩

/-- `aggregate_by_dimension` cannot raise when every evaluation is
well typed. -/
theorem aggregate_by_dimension_ok (rs : List SimResult)
    (dim : SimResult → String)
    (h : ∀ r ∈ rs, wellTypedEval r.evaluation) :
    ∃ st, aggregate_by_dimension rs dim = .ok st := by
  obtain ⟨m, hm⟩ := dimFold_ok dim rs h
  exact ⟨finalizeDim m, by simp [aggregate_by_dimension, hm, Except.map]⟩

/-- Every goal-met rate produced by the averaging pass of a successful
`dimFold` lies in the unit interval. -/
theorem finalizeDim_rate_bounds (dim : SimResult → String)
    (rs : List SimResult) (acc : List (String × DimAcc))
    (hacc : dimFold dim rs = .ok acc) :
    ∀ p ∈ finalizeDim acc, 0 ≤ p.2.goal_met_rate ∧ p.2.goal_met_rate ≤ 1 := by
  intro p hp
  obtain ⟨q, hq, rfl⟩ := List.mem_map.mp hp
  have hinv := dimFold_inv dim rs acc hacc q hq
  by_cases hc : q.2.count > 0
  · simp only [hc, if_pos]
    simpa using rateBound q.2.goal_met q.2.count hinv hc
  · simp only [hc]
    simp

/-- The tally key read off a well-typed evaluation is hashable: either
the default string `"Unknown"` or a value the schema keeps hashable. -/
theorem keyHashable (ev : List (String × JVal)) (h : wellTypedEval ev) :
    hashableJVal ((jGet ev "primary_failure_mode").getD (.s "Unknown")) = true := by
  cases hv : jGet ev "primary_failure_mode" with
  | none => rfl
  | some v => simpa using h.2 v hv

/-- `tallyInc` cannot raise on a hashable key. -/
theorem tallyInc_ok (m : List (JVal × Nat)) (k : JVal)
    (hk : hashableJVal k = true) : ∃ out, tallyInc m k = .ok out := by
  unfold tallyInc
  rw [if_pos hk]
  exact ⟨_, rfl⟩

/-- `failureModeCounts` cannot raise when every evaluation is well
typed. -/
theorem failureModeCounts_ok (rs : List SimResult)
    (h : ∀ r ∈ rs, wellTypedEval r.evaluation) :
    ∃ out, failureModeCounts rs = .ok out := by
  suffices hgen : ∀ (acc : List (JVal × Nat)),
      ∃ out, (List.foldlM (fun m r =>
        tallyInc m ((jGet r.evaluation "primary_failure_mode").getD (.s "Unknown")))
        acc rs : Except String (List (JVal × Nat))) = .ok out from hgen []
  induction rs with
  | nil => exact fun acc => ⟨acc, rfl⟩
  | cons r rest ih =>
    intro acc
    obtain ⟨mid, hmid⟩ := tallyInc_ok acc _
      (keyHashable r.evaluation (h r (List.mem_cons_self r rest)))
    obtain ⟨out, hout⟩ := ih (fun x hx => h x (List.mem_cons_of_mem _ hx)) mid
    refine ⟨out, ?_⟩
    rw [List.foldlM_cons, hmid]
    exact hout

/-- Inversion of `aggregate_results` on its success path: the input was
non-empty with at least one valid entry, the summary counts and rates
are exactly the partition-by-`error`-key statistics, and the two
breakdowns come from successful dimension folds. -/
theorem aggregate_results_inv (results : List SimResult)
    (rep : AggregateReport)
    (h : aggregate_results results = .ok (.report rep)) :
    results.isEmpty = false ∧
    (results.filter (fun r => r.error.isNone)).isEmpty = false ∧
    rep.summary.total_simulations = results.length ∧
    rep.summary.successful_simulations =
      (results.filter (fun r => r.error.isNone)).length ∧
    rep.summary.failed_simulations =
      (results.filter (fun r => r.error.isSome)).length ∧
    rep.summary.goal_met_rate =
      (((results.filter (fun r => r.error.isNone)).filter
          (fun r => r.goal_met)).length : Rat) /
        ((results.filter (fun r => r.error.isNone)).length : Rat) ∧
    rep.summary.giving_up_rate =
      (((results.filter (fun r => r.error.isNone)).filter
          (fun r => r.giving_up)).length : Rat) /
        ((results.filter (fun r => r.error.isNone)).length : Rat) ∧
    (∃ accS, dimFold (fun r => r.scenario_id)
        (results.filter (fun r => r.error.isNone)) = .ok accS ∧
       rep.scenario_breakdown = finalizeDim accS) ∧
    (∃ accP, dimFold (fun r => r.personality_id)
        (results.filter (fun r => r.error.isNone)) = .ok accP ∧
       rep.personality_breakdown = finalizeDim accP) := by
  simp only [aggregate_results] at h
  by_cases h1 : results.isEmpty
  · rw [if_pos h1] at h
    simp at h
  · rw [if_neg h1] at h
    by_cases h2 : (results.filter (fun r => r.error.isNone)).isEmpty
    · rw [if_pos h2] at h
      simp at h
    · rw [if_neg h2] at h
      have hpos : 0 < (results.filter (fun r => r.error.isNone)).length := by
        cases hl : results.filter (fun r => r.error.isNone) with
        | nil => rw [hl] at h2; simp at h2
        | cons a t => simp [hl]
      cases hcs : collectCategoryScores (results.filter (fun r => r.error.isNone)) with
      | error e => rw [hcs] at h; simp at h
      | ok cs =>
        cases hss : aggregate_by_dimension
            (results.filter (fun r => r.error.isNone)) (fun r => r.scenario_id) with
        | error e => rw [hcs, hss] at h; simp at h
        | ok ss =>
          cases hps : aggregate_by_dimension
              (results.filter (fun r => r.error.isNone)) (fun r => r.personality_id) with
          | error e => rw [hcs, hss, hps] at h; simp at h
          | ok ps =>
            cases hfm : failureModeCounts (results.filter (fun r => r.error.isNone)) with
            | error e => rw [hcs, hss, hps, hfm] at h; simp at h
            | ok fm =>
            rw [hcs, hss, hps, hfm] at h
            simp only [Except.ok.injEq, AggregateOutcome.report.injEq] at h
            subst h
            obtain ⟨accS, haccS, hfinS⟩ := aggregate_by_dimension_inv _ _ _ hss
            obtain ⟨accP, haccP, hfinP⟩ := aggregate_by_dimension_inv _ _ _ hps
            refine ⟨by simpa using h1, by simpa using h2, rfl, rfl, rfl, ?_, ?_,
              ⟨accS, haccS, hfinS⟩, ⟨accP, haccP, hfinP⟩⟩
            · simp only
              rw [if_pos hpos]
            · simp only
              rw [if_pos hpos]

/-- On a non-empty input with at least one valid entry and well-typed
evaluations, `aggregate_results` returns a report. -/
theorem aggregate_results_report_exists (results : List SimResult)
    (h1 : results.isEmpty = false)
    (h2 : (results.filter (fun r => r.error.isNone)).isEmpty = false)
    (hwt : ∀ r ∈ results, wellTypedEval r.evaluation) :
    ∃ rep, aggregate_results results = .ok (.report rep) := by
  have hv : ∀ r ∈ results.filter (fun r => r.error.isNone), wellTypedEval r.evaluation :=
    fun r hr => hwt r (List.mem_filter.mp hr).1
  obtain ⟨cs, hcs⟩ := collectCategoryScores_ok _ hv
  obtain ⟨ss, hss⟩ := aggregate_by_dimension_ok _ (fun r => r.scenario_id) hv
  obtain ⟨ps, hps⟩ := aggregate_by_dimension_ok _ (fun r => r.personality_id) hv
  obtain ⟨fm, hfm⟩ := failureModeCounts_ok _ hv
  simp only [aggregate_results]
  rw [if_neg (by simp [h1]), if_neg (by simp [h2]), hcs, hss, hps, hfm]
  exact ⟨_, rfl⟩

/-- `aggregate_results` never raises on well-typed inputs: it returns
either one of the two explicit error markers or a report. -/
theorem aggregate_results_isOk (results : List SimResult)
    (hwt : ∀ r ∈ results, wellTypedEval r.evaluation) :
    (aggregate_results results).isOk = true := by
  by_cases h1 : results.isEmpty
  · simp only [aggregate_results]
    rw [if_pos h1]
    rfl
  · by_cases h2 : (results.filter (fun r => r.error.isNone)).isEmpty
    · simp only [aggregate_results]
      rw [if_neg h1, if_pos h2]
      rfl
    · obtain ⟨rep, hrep⟩ := aggregate_results_report_exists results
        (by simpa using h1) (by simpa using h2) hwt
      rw [hrep]
      rfl

/-- The empty dict is trivially well typed. -/
theorem wellTypedEval_nil : wellTypedEval [] := by
  constructor
  · intro c _ v hv
    simp [jGet] at hv
  · intro v hv
    simp [jGet] at hv

/-- The aggregate rates for a single valid entry are just its two flags,
each counted as a full rate of 1 when set. -/
theorem summaryRates_single (r : SimResult) (hr : r.error = none)
    (hwt : wellTypedEval r.evaluation) :
    summaryRates (aggregate_results [r]) =
      some ((if r.goal_met then (1 : Rat) else 0),
            (if r.giving_up then (1 : Rat) else 0)) := by
  obtain ⟨rep, hrep⟩ := aggregate_results_report_exists [r] (by simp)
    (by simp [hr]) (by intro x hx; simp at hx; subst hx; exact hwt)
  obtain ⟨-, -, -, -, -, hgm, hgu, -, -⟩ := aggregate_results_inv [r] rep hrep
  have hfil : List.filter (fun x => x.error.isNone) [r] = [r] := by
    simp [List.filter, hr]
  rw [hfil] at hgm hgu
  rw [hrep]
  simp only [summaryRates]
  have g1 : rep.summary.goal_met_rate = (if r.goal_met then (1 : Rat) else 0) := by
    rw [hgm]
    by_cases hg : r.goal_met <;> simp [List.filter, hg]
  have g2 : rep.summary.giving_up_rate = (if r.giving_up then (1 : Rat) else 0) := by
    rw [hgu]
    by_cases hg : r.giving_up <;> simp [List.filter, hg]
  rw [g1, g2]

/-- With a user driver that reports goal met and giving up together and
a budget of at least 2, the loop consumes one such reply and stores both
flags verbatim. -/
theorem runConversation_userBoth
    (agent : List Message → String → String) (msg init : String)
    (B : Nat) (hB : 2 ≤ B) :
    (runConversation agent (fun _ _ => ⟨msg, true, true⟩) init B).goal_met = true ∧
    (runConversation agent (fun _ _ => ⟨msg, true, true⟩) init B).giving_up = true := by
  obtain ⟨b, rfl⟩ : ∃ b, B = b + 1 + 1 := ⟨B - 2, by omega⟩
  constructor <;> simp [runConversation, convLoop]

/-- Claim C6, counterexample: when the driver returns both flags true,
the Controller's RunResult records `goal_met = true` and
`giving_up = true` simultaneously - there is no tie-break to GOAL_MET -
and the aggregator's two tallies each count the same run, so it is not
the case that exactly one of the three termination states holds. -/
theorem C6_counterexample :
    (run_single_conversation agentA userBoth judgeEmpty "s" "p" "init" (some 10)).goal_met = true ∧
    (run_single_conversation agentA userBoth judgeEmpty "s" "p" "init" (some 10)).giving_up = true ∧
    ((List.filter (fun r => r.goal_met)
        (List.filter (fun r => r.error.isNone)
          [run_single_conversation agentA userBoth judgeEmpty "s" "p" "init" (some 10)])).length = 1 ∧
     (List.filter (fun r => r.giving_up)
        (List.filter (fun r => r.error.isNone)
          [run_single_conversation agentA userBoth judgeEmpty "s" "p" "init" (some 10)])).length = 1) :=
  ⟨rfl, rfl, rfl, rfl⟩

/-- Claim C6, amended: the Controller applies no precedence between the
driver's `goal_met` and `giving_up` signals - it stores both verbatim.
When both are true, the RunResult carries both flags set and the
aggregator counts the run in both the goal-met and the give-up rate
(both rates are 1 for a single such run), so the three termination
conditions are not mutually exclusive in the produced data. -/
theorem C6_no_tiebreak
    (agent : List Message → String → String)
    (msg scen pers init : String) (B : Nat) (hB : 2 ≤ B) :
    (run_single_conversation agent (fun _ _ => ⟨msg, true, true⟩) judgeEmpty
        scen pers init (some B)).goal_met = true ∧
    (run_single_conversation agent (fun _ _ => ⟨msg, true, true⟩) judgeEmpty
        scen pers init (some B)).giving_up = true ∧
    summaryRates (aggregate_results
        [run_single_conversation agent (fun _ _ => ⟨msg, true, true⟩) judgeEmpty
          scen pers init (some B)]) = some ((1 : Rat), (1 : Rat)) := by
  have hb0 : (B == 0) = false := by
    simp only [beq_eq_false_iff_ne, ne_eq]
    omega
  have heff : effectiveMaxTurns (some B) = B := by
    simp [effectiveMaxTurns, hb0]
  obtain ⟨hgm, hgu⟩ := runConversation_userBoth agent msg init B hB
  have hgm2 : (run_single_conversation agent (fun _ _ => ⟨msg, true, true⟩)
      judgeEmpty scen pers init (some B)).goal_met = true := by
    simp only [run_single_conversation, heff]
    exact hgm
  have hgu2 : (run_single_conversation agent (fun _ _ => ⟨msg, true, true⟩)
      judgeEmpty scen pers init (some B)).giving_up = true := by
    simp only [run_single_conversation, heff]
    exact hgu
  have hrates := summaryRates_single
    (run_single_conversation agent (fun _ _ => ⟨msg, true, true⟩) judgeEmpty
      scen pers init (some B)) rfl wellTypedEval_nil
  rw [hgm2, hgu2] at hrates
  exact ⟨hgm2, hgu2, by rw [hrates]; simp⟩

/-- Witness for C6 (amended) at budget 2 with a concrete agent. -/
theorem C6_no_tiebreak_witness :
    2 ≤ 2 ∧
    ((run_single_conversation agentA (fun _ _ => ⟨"u", true, true⟩) judgeEmpty
        "s" "p" "init" (some 2)).goal_met = true ∧
     (run_single_conversation agentA (fun _ _ => ⟨"u", true, true⟩) judgeEmpty
        "s" "p" "init" (some 2)).giving_up = true ∧
     summaryRates (aggregate_results
        [run_single_conversation agentA (fun _ _ => ⟨"u", true, true⟩) judgeEmpty
          "s" "p" "init" (some 2)]) = some ((1 : Rat), (1 : Rat))) :=
  ⟨Nat.le_refl 2, C6_no_tiebreak agentA "u" "s" "p" "init" 2 (Nat.le_refl 2)⟩

/-- Claim C2, counterexample: a result with no top-level `error` key
whose evaluation has none of the 12 category keys is still counted as
valid (it contributes to `successful_simulations`), so the partition
predicate is not "evaluation contains all 12 category keys". -/
theorem C2_counterexample :
    successfulOf (aggregate_results [demoResult]) = some 1 ∧
    hasAllCategories demoResult.evaluation = false :=
  ⟨rfl, rfl⟩

/-- Claim C2, amended: the aggregator partitions results by presence of
the top-level `error` key alone - a result is valid (counted in
`successful_simulations`) if and only if it has no `error` entry,
regardless of which category keys its evaluation contains. -/
theorem C2_partition_by_error_key (results : List SimResult)
    (rep : AggregateReport)
    (h : aggregate_results results = .ok (.report rep)) :
    rep.summary.successful_simulations =
      (results.filter (fun r => r.error.isNone)).length ∧
    rep.summary.total_simulations = results.length ∧
    rep.summary.failed_simulations =
      (results.filter (fun r => r.error.isSome)).length := by
  obtain ⟨-, -, htot, hsucc, hfail, -, -, -, -⟩ :=
    aggregate_results_inv results rep h
  exact ⟨hsucc, htot, hfail⟩

/-- Witness for C2 (amended) on a one-element valid input. -/
theorem C2_partition_by_error_key_witness :
    aggregate_results [demoResult] = .ok (.report demoReport) ∧
    demoReport.summary.successful_simulations =
      ([demoResult].filter (fun r => r.error.isNone)).length :=
  ⟨rfl, (C2_partition_by_error_key [demoResult] demoReport rfl).1⟩

/-- Claim C8: the aggregator returns the explicit error-marker object on
an empty input and on an all-error input, never raises on inputs whose
evaluations are well typed (schema-shaped: category values are dicts
with numeric scores and the `primary_failure_mode`, if present, is a
hashable value, never a dict), and every rate field it produces - the
two summary rates and every per-group goal-met rate in both
breakdowns - lies in [0, 1]. -/
theorem C8_aggregator_safety :
    aggregate_results [] = .ok (.errorMarker "No results to aggregate") ∧
    (∀ results : List SimResult, results ≠ [] →
       (∀ r ∈ results, r.error.isSome = true) →
       aggregate_results results = .ok (.errorMarker "No valid results to aggregate")) ∧
    (∀ results : List SimResult,
       (∀ r ∈ results, wellTypedEval r.evaluation) →
       (aggregate_results results).isOk = true) ∧
    (∀ (results : List SimResult) (rep : AggregateReport),
       aggregate_results results = .ok (.report rep) →
       (0 ≤ rep.summary.goal_met_rate ∧ rep.summary.goal_met_rate ≤ 1) ∧
       (0 ≤ rep.summary.giving_up_rate ∧ rep.summary.giving_up_rate ≤ 1) ∧
       (∀ p ∈ rep.scenario_breakdown,
          0 ≤ p.2.goal_met_rate ∧ p.2.goal_met_rate ≤ 1) ∧
       (∀ p ∈ rep.personality_breakdown,
          0 ≤ p.2.goal_met_rate ∧ p.2.goal_met_rate ≤ 1)) := by
  refine ⟨rfl, ?_, ?_, ?_⟩
  · intro results hne hall
    have hfil : results.filter (fun r => r.error.isNone) = [] := by
      rw [List.filter_eq_nil_iff]
      intro a ha
      have h2 := hall a ha
      cases he : a.error with
      | none => rw [he] at h2; simp at h2
      | some v => simp [he]
    simp only [aggregate_results]
    rw [if_neg (by simp [List.isEmpty_iff, hne]), hfil]
    rfl
  · exact aggregate_results_isOk
  · intro results rep h
    obtain ⟨-, h2, -, -, -, hgm, hgu, ⟨accS, haccS, hfinS⟩, ⟨accP, haccP, hfinP⟩⟩ :=
      aggregate_results_inv results rep h
    have hvne : results.filter (fun r => r.error.isNone) ≠ [] := by
      intro hh
      rw [hh] at h2
      simp at h2
    have hpos : 0 < (results.filter (fun r => r.error.isNone)).length :=
      List.length_pos.mpr hvne
    refine ⟨?_, ?_, ?_, ?_⟩
    · rw [hgm]
      exact rateBound _ _ (List.length_filter_le _ _) hpos
    · rw [hgu]
      exact rateBound _ _ (List.length_filter_le _ _) hpos
    · rw [hfinS]
      exact finalizeDim_rate_bounds _ _ _ haccS
    · rw [hfinP]
      exact finalizeDim_rate_bounds _ _ _ haccP

/-- Witness for C8 on concrete one-element inputs: an all-error input
yields the second marker, a valid well-typed input aggregates without
raising, and its report's summary rates are in bounds. -/
theorem C8_aggregator_safety_witness :
    ([errResult] ≠ [] ∧ (∀ r ∈ [errResult], r.error.isSome = true) ∧
     aggregate_results [errResult] = .ok (.errorMarker "No valid results to aggregate")) ∧
    (aggregate_results [demoResult]).isOk = true ∧
    (aggregate_results [demoResult] = .ok (.report demoReport) ∧
     (0 ≤ demoReport.summary.goal_met_rate ∧ demoReport.summary.goal_met_rate ≤ 1) ∧
     (0 ≤ demoReport.summary.giving_up_rate ∧ demoReport.summary.giving_up_rate ≤ 1)) := by
  have hall : ∀ r ∈ [errResult], r.error.isSome = true := by
    intro r hr
    simp only [List.mem_singleton] at hr
    subst hr
    rfl
  have hwt : ∀ r ∈ [demoResult], wellTypedEval r.evaluation := by
    intro r hr
    simp only [List.mem_singleton] at hr
    subst hr
    exact wellTypedEval_nil
  refine ⟨⟨by simp, hall, C8_aggregator_safety.2.1 [errResult] (by simp) hall⟩,
    C8_aggregator_safety.2.2.1 [demoResult] hwt,
    rfl,
    (C8_aggregator_safety.2.2.2 [demoResult] demoReport rfl).1,
    (C8_aggregator_safety.2.2.2 [demoResult] demoReport rfl).2.1⟩

/-- Claim C9: the batch runner always returns exactly N entries; a run
whose Controller call raises contributes a stub entry with the sampled
scenario id, personality id and the error text, without aborting later
runs (a succeeding run keeps its own entry); and on the concrete batch
of 3 runs where exactly run 2 raises, the aggregator counts
`successful_simulations = 2` over the 3 entries, exactly one of which
carries the error key. -/
theorem C9_batch_isolation
    (pick : Nat → String × String)
    (runOne : Nat → String → String → Except String SimResult)
    (n : Nat) :
    (run_batch_simulations pick runOne n).length = n ∧
    (∀ i e, i < n → runOne i (pick i).1 (pick i).2 = .error e →
       (run_batch_simulations pick runOne n)[i]? = some
         { scenario_id := (pick i).1, personality_id := (pick i).2,
           conversation_history := [], turns := 0, goal_met := false,
           giving_up := false, evaluation := [], error := some e }) ∧
    (∀ i res, i < n → runOne i (pick i).1 (pick i).2 = .ok res →
       (run_batch_simulations pick runOne n)[i]? = some res) ∧
    (successfulOf (aggregate_results
        (run_batch_simulations demoPick demoRunOne 3)) = some 2 ∧
     (run_batch_simulations demoPick demoRunOne 3).length = 3 ∧
     ((run_batch_simulations demoPick demoRunOne 3).filter
        (fun r => r.error.isSome)).length = 1) := by
  refine ⟨by simp [run_batch_simulations], ?_, ?_, rfl, rfl, rfl⟩
  · intro i e hi he
    simp [run_batch_simulations, List.getElem?_map, List.getElem?_range hi, he]
  · intro i res hi hres
    simp [run_batch_simulations, List.getElem?_map, List.getElem?_range hi, hres]

/-- Witness for C9: the failing run of the concrete batch yields the
stub at index 1 and a succeeding run keeps its entry at index 0. -/
theorem C9_batch_isolation_witness :
    (1 < 3 ∧
     demoRunOne 1 (demoPick 1).1 (demoPick 1).2 = .error "Agent adapter failure" ∧
     (run_batch_simulations demoPick demoRunOne 3)[1]? = some
       { scenario_id := (demoPick 1).1, personality_id := (demoPick 1).2,
         conversation_history := [], turns := 0, goal_met := false,
         giving_up := false, evaluation := [], error := some "Agent adapter failure" }) ∧
    (0 < 3 ∧
     demoRunOne 0 (demoPick 0).1 (demoPick 0).2 = .ok demoResult ∧
     (run_batch_simulations demoPick demoRunOne 3)[0]? = some demoResult) :=
  ⟨⟨by omega, rfl,
    (C9_batch_isolation demoPick demoRunOne 3).2.1 1 "Agent adapter failure"
      (by omega) rfl⟩,
   ⟨by omega, rfl,
    (C9_batch_isolation demoPick demoRunOne 3).2.2.1 0 demoResult (by omega) rfl⟩⟩

end Oddit
